import Mathlib

/-!
Shallow embedding of `src/edurec/sasrec_model.py` (a SASRec-style
self-attentive sequence encoder built from TensorFlow layers), together
with theorems settling the specification claims about it.

Modelling conventions:
* a tensor of shape `(a, b, ...)` is a function `Fin a → Fin b → ... → ℝ`;
  shapes are therefore carried by the types;
* the framework kernels (`tf.matmul`, `tf.nn.softmax`, `tf.math.sqrt`,
  dense layers, kernel-size-1 `Conv1D`, `LayerNormalization`) are given
  their real-valued mathematical semantics;
* `tf.matmul` on tensors of rank ≥ 3 is batched matrix multiplication over
  the two trailing axes, so a rank-4 call is embedded as the per-(batch,
  head) application of the rank-2 kernel;
* `Dropout` at inference (`training = false`) is the identity; during
  training it multiplies each entry by a realized noise factor (0 for a
  dropped unit, 1/(1-rate) for a kept one).  The noise pattern is passed
  explicitly, which makes the stochasticity of a training-mode run and the
  determinism of an inference-mode run provable statements.
-/

namespace SASRec

noncomputable section

/-- Rectified linear unit, the `activation='relu'` of the Conv1D layers. -/
def relu (x : ℝ) : ℝ := max x 0

/-- Semantics of `tf.nn.softmax(z, axis=-1)` on one row of the last axis. -/
def softmax {n : ℕ} (z : Fin n → ℝ) : Fin n → ℝ :=
  fun j => Real.exp (z j) / ∑ t, Real.exp (z t)

/-- Semantics of `tf.matmul(q, k, transpose_b=True)` on the trailing two
axes: entry `(i, j)` is the dot product of row `i` of `q` with row `j` of
`k`. -/
def matmulT {m n d : ℕ} (q : Fin m → Fin d → ℝ) (k : Fin n → Fin d → ℝ) :
    Fin m → Fin n → ℝ :=
  fun i j => ∑ t, q i t * k j t

/-- Semantics of `tf.matmul(a, b)` on the trailing two axes. -/
def matmul {m n p : ℕ} (a : Fin m → Fin n → ℝ) (b : Fin n → Fin p → ℝ) :
    Fin m → Fin p → ℝ :=
  fun i j => ∑ t, a i t * b t j

/-- Embedding of `scaled_dot_product_attention(q, k, v, mask)` on one
batch/head slice, following the source line by line:
`matmul_qk = tf.matmul(q, k, transpose_b=True)`;
`dk = tf.cast(tf.shape(k)[-1], tf.float32)`;
`scaled_attention_logits = matmul_qk / tf.math.sqrt(dk)`;
`if mask is not None: scaled_attention_logits += (mask * -1e9)`;
`attention_weights = tf.nn.softmax(scaled_attention_logits, axis=-1)`;
`output = tf.matmul(attention_weights, v)`;
returns `(output, attention_weights)`. -/
def scaled_dot_product_attention {m n d dv : ℕ}
    (q : Fin m → Fin d → ℝ) (k : Fin n → Fin d → ℝ) (v : Fin n → Fin dv → ℝ)
    (mask : Option (Fin m → Fin n → ℝ)) :
    (Fin m → Fin dv → ℝ) × (Fin m → Fin n → ℝ) :=
  let matmul_qk := matmulT q k
  let dk : ℝ := (d : ℝ)
  let scaled_attention_logits := fun i j => matmul_qk i j / Real.sqrt dk
  let masked_logits :=
    match mask with
    | none => scaled_attention_logits
    | some mm => fun i j => scaled_attention_logits i j + mm i j * (-1e9)
  let attention_weights := fun i => softmax (masked_logits i)
  let output := matmul attention_weights v
  (output, attention_weights)

/-- The attention weights as the spec phrases them: softmax over the key
axis of (Q·Kᵀ divided by √depth, plus mask·(−1e9) when a mask is supplied;
no penalty term when the mask is absent). -/
def specAttentionWeights {m n d : ℕ}
    (q : Fin m → Fin d → ℝ) (k : Fin n → Fin d → ℝ)
    (mask : Option (Fin m → Fin n → ℝ)) : Fin m → Fin n → ℝ :=
  fun i => softmax (fun j =>
    matmulT q k i j / Real.sqrt (d : ℝ) +
      (match mask with
       | none => 0
       | some mm => mm i j * (-1e9)))

/-- Configuration state established by `MultiHeadAttention.__init__`. -/
structure MHAConfig where
  num_heads : ℕ
  d_model : ℕ
  depth : ℕ

/-- Embedding of `MultiHeadAttention.__init__(d_model, num_heads)`: the
constructor runs `assert d_model % self.num_heads == 0` and, when the
assertion passes, sets `self.depth = d_model // self.num_heads`.  A failed
assertion is modelled as `none`. -/
def mhaInit (d_model num_heads : ℕ) : Option MHAConfig :=
  if d_model % num_heads = 0 then
    some { num_heads := num_heads, d_model := d_model, depth := d_model / num_heads }
  else
    none

/-- The scaled raw attention score `Q·Kᵀ/√depth` before any mask penalty. -/
def scaledScore {m n d : ℕ}
    (q : Fin m → Fin d → ℝ) (k : Fin n → Fin d → ℝ) : Fin m → Fin n → ℝ :=
  fun i j => matmulT q k i j / Real.sqrt (d : ℝ)

/-- A query that gives a blocked key position a raw score large enough to
cancel the `-1e9` penalty. -/
def cexQ : Fin 1 → Fin 1 → ℝ := fun _ _ => 1

/-- Keys: position 0 scores 0, position 1 scores `1e9`. -/
def cexK : Fin 2 → Fin 1 → ℝ := fun j _ => if j = 1 then 1e9 else 0

/-- Values (irrelevant to the weight computation). -/
def cexV : Fin 2 → Fin 1 → ℝ := fun _ _ => 0

/-- Mask fully blocking key position 1. -/
def cexMask : Fin 1 → Fin 2 → ℝ := fun _ j => if j = 1 then 1 else 0

/-- Parameters of a dense layer `tf.keras.layers.Dense(dOut)`: kernel and
bias. -/
structure DenseParams (dIn dOut : ℕ) where
  w : Fin dIn → Fin dOut → ℝ
  b : Fin dOut → ℝ

/-- Applying a dense layer to the last axis of a rank-3 tensor:
`y[b, s, j] = Σ_c x[b, s, c] · w[c, j] + bias[j]`. -/
def denseApply {B S dIn dOut : ℕ} (p : DenseParams dIn dOut)
    (x : Fin B → Fin S → Fin dIn → ℝ) : Fin B → Fin S → Fin dOut → ℝ :=
  fun bb s j => (∑ c, x bb s c * p.w c j) + p.b j

/-- The learned parameters of a MultiHeadAttention layer with
`d_model = H * dp` (the constructor's divisibility assertion makes the
factorization exact): the three input projections `wq`, `wk`, `wv` and the
final output projection `dense`. -/
structure MHAParams (d_model : ℕ) where
  wq : DenseParams d_model d_model
  wk : DenseParams d_model d_model
  wv : DenseParams d_model d_model
  dense : DenseParams d_model d_model

/-- Embedding of `split_heads(x, batch_size)`: reshape
`(batch, seq_len, d_model)` to `(batch, seq_len, num_heads, depth)` by
splitting the feature axis (row-major, so feature `h·depth + t` lands at
head `h`, channel `t`) and transpose with `perm=[0, 2, 1, 3]` to
`(batch, num_heads, seq_len, depth)`. -/
def split_heads {B S H dp : ℕ} (x : Fin B → Fin S → Fin (H * dp) → ℝ) :
    Fin B → Fin H → Fin S → Fin dp → ℝ :=
  fun b h s t => x b s ⟨h.val * dp + t.val, by
    calc h.val * dp + t.val < h.val * dp + dp := Nat.add_lt_add_left t.isLt _
      _ = (h.val + 1) * dp := (Nat.succ_mul _ _).symm
      _ ≤ H * dp := Nat.mul_le_mul_right dp h.isLt⟩

/-- Embedding of the head recombination in `MultiHeadAttention.call`:
transpose `(batch, num_heads, seq_len_q, depth)` with `perm=[0, 2, 1, 3]`
and reshape to `(batch, seq_len_q, d_model)` (row-major, so flattened
feature `f` reads head `f / depth`, channel `f % depth`). -/
def mergeHeads {B S H dp : ℕ} (x : Fin B → Fin H → Fin S → Fin dp → ℝ) :
    Fin B → Fin S → Fin (H * dp) → ℝ :=
  fun b s f =>
    have hdp : 0 < dp := by
      rcases Nat.eq_zero_or_pos dp with hz | hp
      · exact absurd f.isLt (by simp [hz])
      · exact hp
    x b ⟨f.val / dp, (Nat.div_lt_iff_lt_mul hdp).mpr f.isLt⟩ s
      ⟨f.val % dp, Nat.mod_lt _ hdp⟩

/-- Embedding of `MultiHeadAttention.call(v, k, q, mask)`, following the
source: project `q`, `k`, `v` through `wq`, `wk`, `wv`; `split_heads`
each; call `scaled_dot_product_attention` once on the rank-4 tensors
(which batched-matmul semantics turn into the per-(batch, head)
application of the rank-2 kernel, the mask broadcast across heads);
transpose back, reshape to `(batch, seq_len_q, d_model)`, and apply the
output projection `dense`. -/
def MultiHeadAttention.call {B Sq Skv H dp : ℕ} (p : MHAParams (H * dp))
    (v : Fin B → Fin Skv → Fin (H * dp) → ℝ)
    (k : Fin B → Fin Skv → Fin (H * dp) → ℝ)
    (q : Fin B → Fin Sq → Fin (H * dp) → ℝ)
    (mask : Option (Fin B → Fin Sq → Fin Skv → ℝ)) :
    (Fin B → Fin Sq → Fin (H * dp) → ℝ) ×
      (Fin B → Fin H → Fin Sq → Fin Skv → ℝ) :=
  let qd := denseApply p.wq q
  let kd := denseApply p.wk k
  let vd := denseApply p.wv v
  let qs := split_heads qd
  let ks := split_heads kd
  let vs := split_heads vd
  let head_results := fun (b : Fin B) (h : Fin H) =>
    scaled_dot_product_attention (qs b h) (ks b h) (vs b h)
      (mask.map fun mm => mm b)
  let scaled_attention := fun b h => (head_results b h).1
  let attention_weights := fun b h => (head_results b h).2
  let concat_attention := mergeHeads scaled_attention
  let output := denseApply p.dense concat_attention
  (output, attention_weights)

/-- MultiHeadAttention's forward pass as the spec phrases it: project `v`,
`k`, `q` to `d_model` via three independent learned projections, reshape
each to `(batch, num_heads, seq_len, depth)` with the head axis before the
sequence axis, run scaled dot-product attention per head with the shared
mask, transpose back and flatten to `(batch, seq_len_q, d_model)`, apply
the final learned output projection, and also return the per-head
attention weights. -/
def mhaSpec {B Sq Skv H dp : ℕ} (p : MHAParams (H * dp))
    (v : Fin B → Fin Skv → Fin (H * dp) → ℝ)
    (k : Fin B → Fin Skv → Fin (H * dp) → ℝ)
    (q : Fin B → Fin Sq → Fin (H * dp) → ℝ)
    (mask : Option (Fin B → Fin Sq → Fin Skv → ℝ)) :
    (Fin B → Fin Sq → Fin (H * dp) → ℝ) ×
      (Fin B → Fin H → Fin Sq → Fin Skv → ℝ) :=
  let vh := split_heads (denseApply p.wv v)
  let kh := split_heads (denseApply p.wk k)
  let qh := split_heads (denseApply p.wq q)
  let perHead := fun (b : Fin B) (h : Fin H) =>
    scaled_dot_product_attention (qh b h) (kh b h) (vh b h)
      (mask.map fun mm => mm b)
  (denseApply p.dense (mergeHeads fun b h => (perHead b h).1),
    fun b h => (perHead b h).2)

/-- Semantics of `tf.keras.layers.Conv1D(dOut, kernel_size=1,
activation='relu')` on a `(batch, seq_len, channels)` tensor: a
kernel-size-1 convolution over the sequence axis is a position-wise dense
map, followed by the ReLU activation. -/
def conv1d_k1 {B S dIn dOut : ℕ} (p : DenseParams dIn dOut)
    (x : Fin B → Fin S → Fin dIn → ℝ) : Fin B → Fin S → Fin dOut → ℝ :=
  fun b s j => relu ((∑ c, x b s c * p.w c j) + p.b j)

/-- Semantics of `tf.keras.layers.Dropout(rate)(x, training=training)`:
the identity when `training` is false; entrywise multiplication by the
realized noise pattern (0 for dropped units, `1/(1-rate)` for kept ones)
when `training` is true. -/
def dropout3 {B S d : ℕ} (training : Bool)
    (noise : Fin B → Fin S → Fin d → ℝ)
    (x : Fin B → Fin S → Fin d → ℝ) : Fin B → Fin S → Fin d → ℝ :=
  if training then fun b s j => noise b s j * x b s j else x

/-- The learned parameters of `PointWiseFFN`: the two kernel-size-1
Conv1D layers. -/
structure FFNParams (d_model : ℕ) where
  conv1d_1 : DenseParams d_model d_model
  conv1d_2 : DenseParams d_model d_model

/-- Embedding of `PointWiseFFN.call(x, training)`: first Conv1D (with
ReLU), dropout, second Conv1D (with ReLU). -/
def PointWiseFFN.call {B S d_model : ℕ} (p : FFNParams d_model)
    (x : Fin B → Fin S → Fin d_model → ℝ) (training : Bool)
    (noise : Fin B → Fin S → Fin d_model → ℝ) :
    Fin B → Fin S → Fin d_model → ℝ :=
  let out1 := conv1d_k1 p.conv1d_1 x
  let out2 := dropout3 training noise out1
  conv1d_k1 p.conv1d_2 out2

/-- Learned scale (`gamma`) and offset (`beta`) of a
`LayerNormalization` layer. -/
structure LayerNormParams (d : ℕ) where
  gamma : Fin d → ℝ
  beta : Fin d → ℝ

/-- Semantics of `tf.keras.layers.LayerNormalization(epsilon=1e-6)` on
one feature row: center by the mean, scale by the standard deviation over
the last axis (with the epsilon inside the square root), then apply the
learned scale and offset. -/
def layernorm {d : ℕ} (p : LayerNormParams d) (eps : ℝ) (x : Fin d → ℝ) :
    Fin d → ℝ :=
  let mu := (∑ j, x j) / d
  let sigma2 := (∑ j, (x j - mu) ^ 2) / d
  fun j => p.gamma j * ((x j - mu) / Real.sqrt (sigma2 + eps)) + p.beta j

/-- The learned parameters of a `SASEncoderLayer` with
`d_model = H * dp`. -/
structure EncoderLayerParams (H dp : ℕ) where
  mha : MHAParams (H * dp)
  ffn : FFNParams (H * dp)
  layernorm1 : LayerNormParams (H * dp)
  layernorm2 : LayerNormParams (H * dp)

/-- Realized noise of the three dropouts inside one encoder layer
(`dropout1`, `dropout2`, and the FFN's internal dropout). -/
structure LayerNoise (B S d : ℕ) where
  n1 : Fin B → Fin S → Fin d → ℝ
  n2 : Fin B → Fin S → Fin d → ℝ
  nffn : Fin B → Fin S → Fin d → ℝ

/-- Embedding of `SASEncoderLayer.call(x, training, mask)`, following the
source: `attn_output, _ = mha(x, x, x, mask)`;
`attn_output = dropout1(attn_output, training)`;
`out1 = layernorm1(x + attn_output)`;
`ffn_output = ffn(out1, training)`;
`ffn_output = dropout2(ffn_output, training)`;
`out2 = layernorm2(out1 + ffn_output)`. -/
def SASEncoderLayer.call {B S H dp : ℕ} (p : EncoderLayerParams H dp)
    (x : Fin B → Fin S → Fin (H * dp) → ℝ) (training : Bool)
    (mask : Option (Fin B → Fin S → Fin S → ℝ))
    (ns : LayerNoise B S (H * dp)) : Fin B → Fin S → Fin (H * dp) → ℝ :=
  let attn_output := (MultiHeadAttention.call p.mha x x x mask).1
  let attn_dropped := dropout3 training ns.n1 attn_output
  let out1 := fun b s =>
    layernorm p.layernorm1 1e-6 (fun j => x b s j + attn_dropped b s j)
  let ffn_output := PointWiseFFN.call p.ffn out1 training ns.nffn
  let ffn_dropped := dropout3 training ns.n2 ffn_output
  fun b s => layernorm p.layernorm2 1e-6 (fun j => out1 b s j + ffn_dropped b s j)

/-- EncoderLayer's forward pass as the spec phrases it: (1) self-attention
with query=key=value=x under the mask; (2) dropout on the attention
output; (3) residual add of the original input, then layer-normalize;
(4) feed-forward on the normalized result; (5) dropout; (6) residual add
of the normalized attention output, then layer-normalize. -/
def encoderLayerSpec {B S H dp : ℕ} (p : EncoderLayerParams H dp)
    (x : Fin B → Fin S → Fin (H * dp) → ℝ) (training : Bool)
    (mask : Option (Fin B → Fin S → Fin S → ℝ))
    (ns : LayerNoise B S (H * dp)) : Fin B → Fin S → Fin (H * dp) → ℝ :=
  let selfAttn := (MultiHeadAttention.call p.mha x x x mask).1
  let norm1 := fun b s => layernorm p.layernorm1 1e-6
    (fun j => x b s j + dropout3 training ns.n1 selfAttn b s j)
  let ff := PointWiseFFN.call p.ffn norm1 training ns.nffn
  fun b s => layernorm p.layernorm2 1e-6
    (fun j => norm1 b s j + dropout3 training ns.n2 ff b s j)

/-- The learned parameters of a `SASEncoder`: the token-embedding table
(`input_vocab_size` rows), the positional-embedding table (`max_len`
rows), and the stack of `num_layers` encoder layers. -/
structure EncoderParams (H dp vocab max_len : ℕ) where
  embedding : Fin vocab → Fin (H * dp) → ℝ
  pos_embedding : Fin max_len → Fin (H * dp) → ℝ
  enc_layers : List (EncoderLayerParams H dp)

/-- Applying the encoder-layer stack in order
(`for i in range(self.num_layers): x = self.enc_layers[i](x, training,
mask)`): the same mask is threaded to every layer; layer `i` draws its
realized dropout noise from `noises i`. -/
def applyEncLayers {B S H dp : ℕ} (layers : List (EncoderLayerParams H dp))
    (training : Bool) (mask : Option (Fin B → Fin S → Fin S → ℝ))
    (noises : ℕ → LayerNoise B S (H * dp)) (i : ℕ)
    (x : Fin B → Fin S → Fin (H * dp) → ℝ) :
    Fin B → Fin S → Fin (H * dp) → ℝ :=
  match layers with
  | [] => x
  | l :: ls => applyEncLayers ls training mask noises (i + 1)
      (SASEncoderLayer.call l x training mask (noises i))

/-- Embedding of `SASEncoder.call(x, training, mask)`, following the
source: token-embedding lookup; `x *= tf.math.sqrt(d_model)`;
`x_pos = tf.tile(tf.expand_dims(tf.range(seq_len), 0), [batch, 1])` so
row `b` of `x_pos` is `0..seq_len-1`; `x += pos_embedding(x_pos)`;
dropout; then the layer stack with the same mask.  The positional lookup
is in bounds thanks to the precondition `hS : S ≤ max_len`, which the
source leaves unstated (claim C10 analyses exactly this). -/
def SASEncoder.call {B S H dp vocab max_len : ℕ}
    (p : EncoderParams H dp vocab max_len) (hS : S ≤ max_len)
    (x : Fin B → Fin S → Fin vocab) (training : Bool)
    (mask : Option (Fin B → Fin S → Fin S → ℝ))
    (noise0 : Fin B → Fin S → Fin (H * dp) → ℝ)
    (noises : ℕ → LayerNoise B S (H * dp)) :
    Fin B → Fin S → Fin (H * dp) → ℝ :=
  let emb := fun b s j => p.embedding (x b s) j * Real.sqrt ((H * dp : ℕ) : ℝ)
  let withPos := fun b (s : Fin S) j =>
    emb b s j + p.pos_embedding ⟨s.val, lt_of_lt_of_le s.isLt hS⟩ j
  let dropped := dropout3 training noise0 withPos
  applyEncLayers p.enc_layers training mask noises 0 dropped

/-- The embedding + positional + dropout input stage of the encoder as
the spec phrases it: token-embedding lookup, multiplication by √d_model,
addition of positional embeddings at indices 0..seq_len−1 repeated for
every batch row, then dropout. -/
def encoderInputStage {B S H dp vocab max_len : ℕ}
    (p : EncoderParams H dp vocab max_len) (hS : S ≤ max_len)
    (x : Fin B → Fin S → Fin vocab) (training : Bool)
    (noise0 : Fin B → Fin S → Fin (H * dp) → ℝ) :
    Fin B → Fin S → Fin (H * dp) → ℝ :=
  dropout3 training noise0 (fun b s j =>
    p.embedding (x b s) j * Real.sqrt ((H * dp : ℕ) : ℝ) +
      p.pos_embedding ⟨s.val, lt_of_lt_of_le s.isLt hS⟩ j)

/-- The positional indices used by `SASEncoder.call`:
`tf.tile(tf.expand_dims(tf.range(seq_len), 0), [batch_size, 1])` gives
row `b`, column `s` the value `s`. -/
def x_pos (B S : ℕ) : Fin B → Fin S → ℕ := fun _ s => s.val

/-- All positional indices produced by `x_pos` are valid rows of the
positional-embedding table of size `max_len`. -/
def posLookupInBounds (B S max_len : ℕ) : Prop :=
  ∀ (b : Fin B) (s : Fin S), x_pos B S b s < max_len

end

section Claims

/-- Claim C1: `scaled_dot_product_attention` returns exactly the softmax
(over the key axis) of the scaled, optionally mask-penalized scores,
multiplied by `V`, together with those softmax weights as the second
result; with no mask, no penalty term is added. -/
theorem sdpa_matches_spec {m n d dv : ℕ}
    (q : Fin m → Fin d → ℝ) (k : Fin n → Fin d → ℝ) (v : Fin n → Fin dv → ℝ)
    (mask : Option (Fin m → Fin n → ℝ)) :
    scaled_dot_product_attention q k v mask =
      (matmul (specAttentionWeights q k mask) v, specAttentionWeights q k mask) := by
  cases mask with
  | none =>
      unfold scaled_dot_product_attention specAttentionWeights
      simp
  | some mm => rfl

/-- Claim C7: with no mask, the attention-weight tensor sums to 1 along
the key axis for every query position (the key axis being nonempty). -/
theorem attention_weights_sum_to_one {m n d dv : ℕ} (hn : 0 < n)
    (q : Fin m → Fin d → ℝ) (k : Fin n → Fin d → ℝ) (v : Fin n → Fin dv → ℝ)
    (i : Fin m) :
    ∑ j, (scaled_dot_product_attention q k v none).2 i j = 1 := by
  have hpos : 0 < ∑ t, Real.exp (matmulT q k i t / Real.sqrt (d : ℝ)) := by
    apply Finset.sum_pos (fun t _ => Real.exp_pos _)
    exact Finset.univ_nonempty_iff.mpr (Fin.pos_iff_nonempty.mp hn)
  unfold scaled_dot_product_attention softmax
  simp only
  rw [← Finset.sum_div]
  exact div_self (ne_of_gt hpos)

/-- Witness for C7 at a concrete input. -/
theorem attention_weights_sum_to_one_witness :
    0 < 1 ∧
      ∑ j, (scaled_dot_product_attention
        (fun (_ : Fin 1) (_ : Fin 1) => (0 : ℝ))
        (fun (_ : Fin 1) (_ : Fin 1) => (0 : ℝ))
        (fun (_ : Fin 1) (_ : Fin 1) => (0 : ℝ))
        (none : Option (Fin 1 → Fin 1 → ℝ))).2 (0 : Fin 1) j = 1 :=
  ⟨Nat.one_pos, attention_weights_sum_to_one Nat.one_pos _ _ _ _⟩

/-- Claim C2: constructing a MultiHeadAttention layer fails by assertion
iff `d_model` is not evenly divisible by `num_heads`; on success the
per-head depth equals `d_model / num_heads`. -/
theorem mha_construction (d_model num_heads : ℕ) (h : 0 < num_heads) :
    (mhaInit d_model num_heads = none ↔ ¬ num_heads ∣ d_model) ∧
      ∀ cfg, mhaInit d_model num_heads = some cfg →
        cfg.depth = d_model / num_heads := by
  clear h
  by_cases hd : d_model % num_heads = 0
  · refine ⟨?_, ?_⟩
    · simp [mhaInit, hd, Nat.dvd_iff_mod_eq_zero.mpr hd]
    · intro cfg hcfg
      simp only [mhaInit, hd, if_pos, Option.some.injEq] at hcfg
      rw [← hcfg]
  · refine ⟨?_, ?_⟩
    · have : ¬ num_heads ∣ d_model := fun hdvd =>
        hd (Nat.dvd_iff_mod_eq_zero.mp hdvd)
      simp [mhaInit, hd, this]
    · intro cfg hcfg
      simp [mhaInit, hd] at hcfg

/-- Witness for C2 at `d_model = 8`, `num_heads = 2`. -/
theorem mha_construction_witness :
    0 < 2 ∧
      ((mhaInit 8 2 = none ↔ ¬ 2 ∣ 8) ∧
        ∀ cfg, mhaInit 8 2 = some cfg → cfg.depth = 8 / 2) :=
  ⟨by decide, mha_construction 8 2 (by decide)⟩

/-- Counterexample to claim C8 as stated: with the mask fully blocking key
position 1 but a raw score of `1e9` at that position, the post-softmax
weight of the blocked position is `1/2`, not below `1e-6` — the
suppression does not hold regardless of raw score magnitude. -/
theorem mask_suppression_counterexample :
    (scaled_dot_product_attention cexQ cexK cexV (some cexMask)).2 0 1 = 1 / 2 ∧
      ¬ ((1 : ℝ) / 2 < 1e-6) := by
  constructor
  · unfold scaled_dot_product_attention softmax matmulT cexQ cexK cexMask
    norm_num [Fin.sum_univ_two, Fin.sum_univ_one, Real.sqrt_one, Real.exp_zero]
  · norm_num

/-- Claim C8 as amended: with a mask carrying value 1 at a blocked key
position and value 0 at some unblocked key position, and scaled raw
scores of magnitude at most `1e8` at those two positions, the
post-softmax weight of the blocked position is below `1e-6`. -/
theorem mask_suppresses_bounded_scores {m n d dv : ℕ}
    (q : Fin m → Fin d → ℝ) (k : Fin n → Fin d → ℝ) (v : Fin n → Fin dv → ℝ)
    (mask : Fin m → Fin n → ℝ) (i : Fin m) (jb j0 : Fin n)
    (hb : mask i jb = 1) (h0 : mask i j0 = 0)
    (hsb : |scaledScore q k i jb| ≤ 1e8) (hs0 : |scaledScore q k i j0| ≤ 1e8) :
    (scaled_dot_product_attention q k v (some mask)).2 i jb < 1e-6 := by
  have hrepr : (scaled_dot_product_attention q k v (some mask)).2 i =
      softmax (fun j => scaledScore q k i j + mask i j * (-1e9)) := rfl
  rw [hrepr]
  set L : Fin n → ℝ := fun j => scaledScore q k i j + mask i j * (-1e9) with hLdef
  have hS : Real.exp (L j0) ≤ ∑ t, Real.exp (L t) :=
    Finset.single_le_sum (fun t _ => le_of_lt (Real.exp_pos (L t)))
      (Finset.mem_univ j0)
  have hgap : L jb - L j0 ≤ -(8e8) := by
    have hLb : L jb = scaledScore q k i jb + 1 * (-1e9) := by simp only [hLdef, hb]
    have hL0 : L j0 = scaledScore q k i j0 + 0 * (-1e9) := by simp only [hLdef, h0]
    have hsb' := abs_le.mp hsb
    have hs0' := abs_le.mp hs0
    have e8 : (1e8 : ℝ) = 100000000 := by norm_num
    have e9 : (1e9 : ℝ) = 1000000000 := by norm_num
    have e8n : (8e8 : ℝ) = 800000000 := by norm_num
    rw [hLb, hL0, e8n]
    rw [e8] at hsb' hs0'
    have := hsb'.2
    have := hs0'.1
    rw [e9]
    linarith
  have hsmall : Real.exp (-(8e8 : ℝ)) < 1e-6 := by
    have h1 : (8e8 : ℝ) + 1 ≤ Real.exp (8e8 : ℝ) := Real.add_one_le_exp _
    have h2 : Real.exp (-(8e8 : ℝ)) = 1 / Real.exp (8e8 : ℝ) := by
      rw [Real.exp_neg, one_div]
    have h3 : (0 : ℝ) < (8e8 : ℝ) + 1 := by norm_num
    have h4 : 1 / Real.exp (8e8 : ℝ) ≤ 1 / ((8e8 : ℝ) + 1) :=
      one_div_le_one_div_of_le h3 h1
    have h5 : 1 / ((8e8 : ℝ) + 1) < 1e-6 := by norm_num
    rw [h2]
    exact lt_of_le_of_lt h4 h5
  calc softmax L jb = Real.exp (L jb) / ∑ t, Real.exp (L t) := rfl
    _ ≤ Real.exp (L jb) / Real.exp (L j0) := by gcongr
    _ = Real.exp (L jb - L j0) := (Real.exp_sub (L jb) (L j0)).symm
    _ ≤ Real.exp (-(8e8 : ℝ)) := Real.exp_le_exp.mpr hgap
    _ < 1e-6 := hsmall

/-- Witness for the amended C8 at a concrete input (all scores zero, mask
blocking key position 1, key position 0 unblocked). -/
theorem mask_suppresses_bounded_scores_witness :
    (scaled_dot_product_attention
      (fun (_ : Fin 1) (_ : Fin 1) => (0 : ℝ))
      (fun (_ : Fin 2) (_ : Fin 1) => (0 : ℝ))
      (fun (_ : Fin 2) (_ : Fin 1) => (0 : ℝ))
      (some cexMask)).2 0 1 < 1e-6 :=
  mask_suppresses_bounded_scores _ _ _ cexMask 0 1 0
    (by norm_num [cexMask]) (by norm_num [cexMask])
    (by norm_num [scaledScore, matmulT, Fin.sum_univ_one])
    (by norm_num [scaledScore, matmulT, Fin.sum_univ_one])

/-- Claim C3: `MultiHeadAttention.call` computes exactly the
project/split/attend/recombine/project pipeline the spec describes, with
the output typed `(batch, seq_len_q, d_model)` and the per-head attention
weights as second result. -/
theorem mha_call_matches_spec {B Sq Skv H dp : ℕ} (p : MHAParams (H * dp))
    (v : Fin B → Fin Skv → Fin (H * dp) → ℝ)
    (k : Fin B → Fin Skv → Fin (H * dp) → ℝ)
    (q : Fin B → Fin Sq → Fin (H * dp) → ℝ)
    (mask : Option (Fin B → Fin Sq → Fin Skv → ℝ)) :
    MultiHeadAttention.call p v k q mask = mhaSpec p v k q mask := rfl

/-- Claim C9: PointWiseFFN is two successive kernel-size-1 projections
with a nonlinearity after each, dropout between them active only when
training, and its output at each sequence position depends only on the
input (and realized noise) at that same position — no cross-position
mixing. -/
theorem ffn_structure_and_locality {B S B2 S2 d_model : ℕ}
    (p : FFNParams d_model) :
    (∀ (x : Fin B → Fin S → Fin d_model → ℝ) (training : Bool) noise,
        PointWiseFFN.call p x training noise =
          conv1d_k1 p.conv1d_2 (dropout3 training noise (conv1d_k1 p.conv1d_1 x))) ∧
    (∀ (x : Fin B → Fin S → Fin d_model → ℝ) noise,
        PointWiseFFN.call p x false noise =
          conv1d_k1 p.conv1d_2 (conv1d_k1 p.conv1d_1 x)) ∧
    (∀ (x : Fin B → Fin S → Fin d_model → ℝ)
        (y : Fin B2 → Fin S2 → Fin d_model → ℝ) (training : Bool)
        (noise : Fin B → Fin S → Fin d_model → ℝ)
        (noise2 : Fin B2 → Fin S2 → Fin d_model → ℝ)
        (b : Fin B) (s : Fin S) (b2 : Fin B2) (s2 : Fin S2),
        (∀ c, x b s c = y b2 s2 c) → (∀ c, noise b s c = noise2 b2 s2 c) →
        ∀ j, PointWiseFFN.call p x training noise b s j =
          PointWiseFFN.call p y training noise2 b2 s2 j) := by
  refine ⟨fun x training noise => rfl, fun x noise => rfl, ?_⟩
  intro x y training noise noise2 b s b2 s2 hx hn j
  cases training <;>
    simp [PointWiseFFN.call, conv1d_k1, dropout3, hx, hn]

/-- Witness for C9's locality at concrete inputs: a constant input over a
(1, 1) grid and the same constant over a (2, 2) grid give the same FFN
output at any position. -/
theorem ffn_structure_and_locality_witness :
    PointWiseFFN.call
      (FFNParams.mk
        (DenseParams.mk (fun _ _ => 1) (fun _ => 0))
        (DenseParams.mk (fun _ _ => 1) (fun _ => 0)))
      (fun (_ : Fin 1) (_ : Fin 1) (_ : Fin 1) => (5 : ℝ)) true
      (fun (_ : Fin 1) (_ : Fin 1) (_ : Fin 1) => (2 : ℝ)) 0 0 0 =
    PointWiseFFN.call
      (FFNParams.mk
        (DenseParams.mk (fun _ _ => 1) (fun _ => 0))
        (DenseParams.mk (fun _ _ => 1) (fun _ => 0)))
      (fun (_ : Fin 2) (_ : Fin 2) (_ : Fin 1) => (5 : ℝ)) true
      (fun (_ : Fin 2) (_ : Fin 2) (_ : Fin 1) => (2 : ℝ)) 1 1 0 :=
  (ffn_structure_and_locality _).2.2 _ _ true _ _ 0 0 1 1
    (fun _ => rfl) (fun _ => rfl) 0

/-- Claim C4: `SASEncoderLayer.call` computes exactly the six-step
attention/dropout/residual-normalize/feed-forward/dropout/
residual-normalize pipeline the spec describes; the output has the same
(batch, seq_len, d_model) shape as the input by typing. -/
theorem encoder_layer_matches_spec {B S H dp : ℕ}
    (p : EncoderLayerParams H dp)
    (x : Fin B → Fin S → Fin (H * dp) → ℝ) (training : Bool)
    (mask : Option (Fin B → Fin S → Fin S → ℝ))
    (ns : LayerNoise B S (H * dp)) :
    SASEncoderLayer.call p x training mask ns =
      encoderLayerSpec p x training mask ns := rfl

/-- Claim C6: with `training = false` dropout is inactive, so the encoder
layer — and the whole encoder — is a deterministic function of its input
and parameters: two runs on identical input, whatever realized dropout
noise each run would have drawn, give identical output. -/
theorem inference_deterministic {B S H dp vocab max_len : ℕ} :
    (∀ (p : EncoderLayerParams H dp)
        (x : Fin B → Fin S → Fin (H * dp) → ℝ)
        (mask : Option (Fin B → Fin S → Fin S → ℝ))
        (ns ns2 : LayerNoise B S (H * dp)),
        SASEncoderLayer.call p x false mask ns =
          SASEncoderLayer.call p x false mask ns2) ∧
    (∀ (ep : EncoderParams H dp vocab max_len) (hS : S ≤ max_len)
        (tokens : Fin B → Fin S → Fin vocab)
        (mask : Option (Fin B → Fin S → Fin S → ℝ))
        (n0 n02 : Fin B → Fin S → Fin (H * dp) → ℝ)
        (lns lns2 : ℕ → LayerNoise B S (H * dp)),
        SASEncoder.call ep hS tokens false mask n0 lns =
          SASEncoder.call ep hS tokens false mask n02 lns2) := by
  have hlayer : ∀ (p : EncoderLayerParams H dp)
      (x : Fin B → Fin S → Fin (H * dp) → ℝ)
      (mask : Option (Fin B → Fin S → Fin S → ℝ))
      (ns ns2 : LayerNoise B S (H * dp)),
      SASEncoderLayer.call p x false mask ns =
        SASEncoderLayer.call p x false mask ns2 := fun _ _ _ _ _ => rfl
  have hstack : ∀ (layers : List (EncoderLayerParams H dp))
      (mask : Option (Fin B → Fin S → Fin S → ℝ))
      (lns lns2 : ℕ → LayerNoise B S (H * dp)) (i i2 : ℕ)
      (x : Fin B → Fin S → Fin (H * dp) → ℝ),
      applyEncLayers layers false mask lns i x =
        applyEncLayers layers false mask lns2 i2 x := by
    intro layers
    induction layers with
    | nil => intro _ _ _ _ _ _; rfl
    | cons l ls ih =>
        intro mask lns lns2 i i2 x
        show applyEncLayers ls false mask lns (i + 1)
            (SASEncoderLayer.call l x false mask (lns i)) =
          applyEncLayers ls false mask lns2 (i2 + 1)
            (SASEncoderLayer.call l x false mask (lns2 i2))
        rw [hlayer l x mask (lns i) (lns2 i2)]
        exact ih mask lns lns2 (i + 1) (i2 + 1) _
  refine ⟨hlayer, ?_⟩
  intro ep hS tokens mask n0 n02 lns lns2
  exact hstack ep.enc_layers mask lns lns2 0 0 _

/-- Witness for C6 at a concrete one-layer-free encoder instance. -/
theorem inference_deterministic_witness :
    SASEncoder.call
      ((EncoderParams.mk
        (fun (_ : Fin 1) _ => (0 : ℝ)) (fun (_ : Fin 1) _ => (0 : ℝ)) []) :
          EncoderParams 1 1 1 1)
      (Nat.le_refl 1) (fun (_ : Fin 1) (_ : Fin 1) => (0 : Fin 1)) false none
      (fun _ _ _ => (3 : ℝ)) (fun _ => LayerNoise.mk
        (fun _ _ _ => 3) (fun _ _ _ => 3) (fun _ _ _ => 3)) =
    SASEncoder.call
      ((EncoderParams.mk
        (fun (_ : Fin 1) _ => (0 : ℝ)) (fun (_ : Fin 1) _ => (0 : ℝ)) []) :
          EncoderParams 1 1 1 1)
      (Nat.le_refl 1) (fun (_ : Fin 1) (_ : Fin 1) => (0 : Fin 1)) false none
      (fun _ _ _ => (7 : ℝ)) (fun _ => LayerNoise.mk
        (fun _ _ _ => 7) (fun _ _ _ => 7) (fun _ _ _ => 7)) :=
  inference_deterministic.2 _ (Nat.le_refl 1) _ none _ _ _ _

/-- Claim C5: `SASEncoder.call` computes exactly embedding lookup, scale
by √d_model, positional addition at indices 0..seq_len−1 per batch row,
dropout, then the sequential layer stack with the same mask at every
layer; with an empty stack it is exactly the input stage. -/
theorem encoder_matches_spec {B S H dp vocab max_len : ℕ}
    (p : EncoderParams H dp vocab max_len) (hS : S ≤ max_len)
    (x : Fin B → Fin S → Fin vocab) (training : Bool)
    (mask : Option (Fin B → Fin S → Fin S → ℝ))
    (noise0 : Fin B → Fin S → Fin (H * dp) → ℝ)
    (noises : ℕ → LayerNoise B S (H * dp)) :
    (SASEncoder.call p hS x training mask noise0 noises =
      applyEncLayers p.enc_layers training mask noises 0
        (encoderInputStage p hS x training noise0)) ∧
    (p.enc_layers = [] →
      SASEncoder.call p hS x training mask noise0 noises =
        encoderInputStage p hS x training noise0) := by
  refine ⟨rfl, ?_⟩
  intro hnil
  have h1 : SASEncoder.call p hS x training mask noise0 noises =
      applyEncLayers p.enc_layers training mask noises 0
        (encoderInputStage p hS x training noise0) := rfl
  rw [h1, hnil]
  rfl

/-- Witness for C5 at a concrete encoder instance with an empty stack. -/
theorem encoder_matches_spec_witness :
    (SASEncoder.call
        ((EncoderParams.mk
          (fun (_ : Fin 1) _ => (1 : ℝ)) (fun (_ : Fin 2) _ => (2 : ℝ)) []) :
            EncoderParams 1 1 1 2)
        (by norm_num) (fun (_ : Fin 1) (_ : Fin 1) => (0 : Fin 1)) true none
        (fun _ _ _ => (3 : ℝ)) (fun _ => LayerNoise.mk
          (fun _ _ _ => 3) (fun _ _ _ => 3) (fun _ _ _ => 3)) =
      applyEncLayers [] true none
        (fun _ => LayerNoise.mk (fun _ _ _ => 3) (fun _ _ _ => 3) (fun _ _ _ => 3)) 0
        (encoderInputStage
          ((EncoderParams.mk
            (fun (_ : Fin 1) _ => (1 : ℝ)) (fun (_ : Fin 2) _ => (2 : ℝ)) []) :
              EncoderParams 1 1 1 2)
          (by norm_num) (fun (_ : Fin 1) (_ : Fin 1) => (0 : Fin 1)) true
          (fun _ _ _ => (3 : ℝ)))) ∧
    ([] = ([] : List (EncoderLayerParams 1 1)) →
      SASEncoder.call
        ((EncoderParams.mk
          (fun (_ : Fin 1) _ => (1 : ℝ)) (fun (_ : Fin 2) _ => (2 : ℝ)) []) :
            EncoderParams 1 1 1 2)
        (by norm_num) (fun (_ : Fin 1) (_ : Fin 1) => (0 : Fin 1)) true none
        (fun _ _ _ => (3 : ℝ)) (fun _ => LayerNoise.mk
          (fun _ _ _ => 3) (fun _ _ _ => 3) (fun _ _ _ => 3)) =
      encoderInputStage
        ((EncoderParams.mk
          (fun (_ : Fin 1) _ => (1 : ℝ)) (fun (_ : Fin 2) _ => (2 : ℝ)) []) :
            EncoderParams 1 1 1 2)
        (by norm_num) (fun (_ : Fin 1) (_ : Fin 1) => (0 : Fin 1)) true
        (fun _ _ _ => (3 : ℝ))) :=
  encoder_matches_spec _ (by norm_num) _ true none _ _

/-- Claim C10: with at least one batch row, every positional lookup index
of `SASEncoder.call` is in bounds iff the input sequence length is at most
the `max_len` the positional table was constructed with; for
`seq_len > max_len` the index `max_len` itself is used and exceeds the
table. -/
theorem pos_lookup_in_bounds_iff (B S max_len : ℕ) (hB : 0 < B) :
    posLookupInBounds B S max_len ↔ S ≤ max_len := by
  constructor
  · intro h
    by_contra hlt
    push_neg at hlt
    have hidx := h ⟨0, hB⟩ ⟨max_len, hlt⟩
    simp only [posLookupInBounds, x_pos] at hidx
    exact lt_irrefl _ hidx
  · intro h b s
    exact lt_of_lt_of_le s.isLt h

/-- Witness for C10 at `B = 1`, `S = 5`, `max_len = 10`. -/
theorem pos_lookup_in_bounds_iff_witness :
    0 < 1 ∧ (posLookupInBounds 1 5 10 ↔ 5 ≤ 10) :=
  ⟨Nat.one_pos, pos_lookup_in_bounds_iff 1 5 10 Nat.one_pos⟩

end Claims

end SASRec
